import Mathlib

/-!
Verification development for the incremental caption-stream deduplication
core of the korea-assembly-cc repository.  Python strings are modelled as
`List Char`; the relevant functions of `core/utils.py`, `core/models.py`
and the `#GlobalHistorySuffix` tracker of `ui/main_window.py` are embedded
as executable Lean definitions.  Machine wall-clock times are modelled at
second granularity as integers (the code itself only performs
second-granularity comparisons).  UI rendering, logging, keyword alerts,
file output and the derived character/word statistics caches are external
effects outside the model.
-/

/-- Python `str`, modelled as a list of characters. -/
abbrev Str := List Char

/-- Turn a Lean string literal into the `Str` model. -/
def S (s : String) : Str := s.data

/-- Python `str.isspace` / the `re` class `\s` (both use the same
underlying Unicode table); this is the exact CPython character set. -/
def pyIsSpace (c : Char) : Bool :=
  c = ' ' || c = '\t' || c = '\n' || c = '\x0b' || c = '\x0c' || c = '\r' ||
  c = '\x1c' || c = '\x1d' || c = '\x1e' || c = '\x1f' || c = '\x85' || c = '\xa0' ||
  c = ' ' || (' ' ≤ c && c ≤ ' ') || c = ' ' || c = ' ' ||
  c = ' ' || c = ' ' || c = '　'

/-- The zero-width characters removed by `Config.RE_ZERO_WIDTH`
(U+200B, U+200C, U+200D, U+FEFF). -/
def isZeroWidth (c : Char) : Bool :=
  c = '​' || c = '‌' || c = '‍' || c = '﻿'

/-- `Config.RE_ZERO_WIDTH.sub('', text)`. -/
def removeZW (l : Str) : Str := l.filter (fun c => !isZeroWidth c)

/-- Python `str.lstrip()`. -/
def pyLstrip (l : Str) : Str := l.dropWhile pyIsSpace

/-- Python `str.rstrip()`. -/
def pyRstrip (l : Str) : Str := (l.reverse.dropWhile pyIsSpace).reverse

/-- Python `str.strip()`. -/
def pyStrip (l : Str) : Str := pyRstrip (pyLstrip l)

/-- One pass of `Config.RE_MULTI_SPACE.sub(' ', text)`: every maximal run
of whitespace becomes a single ASCII space.  The boolean argument records
whether the previously read character belonged to a whitespace run. -/
def collapseGo : Str → Bool → Str
  | [], _ => []
  | c :: rest, prevWs =>
      if pyIsSpace c then
        if prevWs then collapseGo rest true else ' ' :: collapseGo rest true
      else c :: collapseGo rest false

/-- `pat` is a literal prefix of `l` (fail-fast character comparison). -/
def strIsPre : Str → Str → Bool
  | [], _ => true
  | _ :: _, [] => false
  | p :: ps, c :: cs => p = c && strIsPre ps cs

/-- Python `haystack.startswith(pat)`. -/
def pyStartswith (l pat : Str) : Bool := strIsPre pat l

/-- Python `haystack.endswith(pat)`. -/
def pyEndswith (l pat : Str) : Bool :=
  if pat.length ≤ l.length then strIsPre pat (l.drop (l.length - pat.length)) else false

/-- All indices at which `pat` occurs in the suffix of the haystack that
starts at absolute index `i`. -/
def occAux (pat : Str) : Str → Nat → List Nat
  | [], i => if pat = [] then [i] else []
  | c :: rest, i =>
      (if strIsPre pat (c :: rest) then [i] else []) ++ occAux pat rest (i + 1)

/-- All occurrence positions of `pat` in `hay`, in increasing order. -/
def occurrences (hay pat : Str) : List Nat := occAux pat hay 0

/-- Python `hay.find(pat)` (`none` for `-1`). -/
def pyFind (hay pat : Str) : Option Nat := (occurrences hay pat).head?

/-- Python `hay.rfind(pat)` (`none` for `-1`). -/
def pyRfind (hay pat : Str) : Option Nat := (occurrences hay pat).getLast?

/-- Python `pat in hay` (substring containment). -/
def strContains (hay pat : Str) : Bool := (pyFind hay pat).isSome

/-- Python `str.split()` with no separator: whitespace runs separate
words and produce no empty items.  `cur` holds the reversed current word. -/
def wordsGo : Str → Str → List Str
  | [], cur => if cur = [] then [] else [cur.reverse]
  | c :: rest, cur =>
      if pyIsSpace c then
        if cur = [] then wordsGo rest [] else cur.reverse :: wordsGo rest []
      else wordsGo rest (c :: cur)

/-- Python `text.split()`. -/
def pyWords (l : Str) : List Str := wordsGo l []

/-- The regex class `\d` (ASCII decimal digits, the only digits this
application's inputs contain). -/
def pyIsDigit (c : Char) : Bool := '0' ≤ c && c ≤ '9'

/-- The regex class `\w`, modelled over the character ranges this
application processes (ASCII alphanumerics and underscore, Hangul
syllables and jamo, unified CJK ideographs). -/
def pyIsWord (c : Char) : Bool :=
  c = '_' || ('0' ≤ c && c ≤ '9') || ('a' ≤ c && c ≤ 'z') || ('A' ≤ c && c ≤ 'Z') ||
  ('가' ≤ c && c ≤ '힣') || ('ᄀ' ≤ c && c ≤ 'ᇿ') ||
  ('㄰' ≤ c && c ≤ '㆏') || ('一' ≤ c && c ≤ '鿿')

/-- `Config.RE_YEAR.sub('', text)` with pattern `\b\d{4}년\b`: leftmost
non-overlapping matches of four digits followed by the year character,
with word boundaries on both sides, are removed.  `prevW` records whether
the character immediately before the scan position is a word character. -/
def yearSubGo : Bool → Str → Str
  | _, [] => []
  | prevW, d1 :: d2 :: d3 :: d4 :: y :: rest2 =>
      if !prevW && pyIsDigit d1 && pyIsDigit d2 && pyIsDigit d3 && pyIsDigit d4 &&
         y = '년' &&
         (match rest2 with | [] => true | c2 :: _ => !pyIsWord c2) then
        yearSubGo true rest2
      else d1 :: yearSubGo (pyIsWord d1) (d2 :: d3 :: d4 :: y :: rest2)
  | _, c :: rest => c :: yearSubGo (pyIsWord c) rest

/-- `Config.RE_YEAR.sub('', text)` (the scan starts at a word boundary). -/
def yearSub (l : Str) : Str := yearSubGo false l

/-- `utils.clean_text_display`: strip year tokens and zero-width
characters, then trim; internal spacing is preserved. -/
def cleanTextDisplay (text : Str) : Str :=
  if text = [] then [] else pyStrip (removeZW (yearSub text))

/-- `utils.normalize_subtitle_text`: collapse whitespace runs to single
spaces, then trim. -/
def normalizeSubtitleText (text : Str) : Str :=
  if text = [] then [] else pyStrip (collapseGo text false)

/-- `utils.compact_subtitle_text`: remove zero-width characters, then all
whitespace, then trim. -/
def compactSubtitleText (text : Str) : Str :=
  if text = [] then []
  else pyStrip ((removeZW text).filter (fun c => !pyIsSpace c))

/-- The scanning loop of `utils.slice_from_compact_index`: walk the text,
skipping whitespace; once `remaining` non-whitespace characters have been
passed, return the rest of the text from the current (non-whitespace)
character on. -/
def sliceAux : Str → Nat → Str
  | [], _ => []
  | c :: rest, remaining =>
      if pyIsSpace c then sliceAux rest remaining
      else if remaining = 0 then c :: rest
      else sliceAux rest (remaining - 1)

/-- `utils.slice_from_compact_index`: the slice of the original text that
starts at the given compact (whitespace-removed) index. -/
def sliceFromCompactIndex (text : Str) (compactIndex : Nat) : Str :=
  if text = [] then []
  else if compactIndex = 0 then text
  else sliceAux (removeZW text) compactIndex

/-- The downward search loop of `utils.find_compact_suffix_prefix_overlap`
(overlap length candidates from the maximum down to `minOverlap`). -/
def fcspoDown (lastCompact textCompact : Str) (minOverlap : Nat) : Nat → Nat
  | 0 => 0
  | k + 1 =>
      if k + 1 < minOverlap then 0
      else if pyEndswith lastCompact (textCompact.take (k + 1)) then k + 1
      else fcspoDown lastCompact textCompact minOverlap k

/-- `utils.find_compact_suffix_prefix_overlap` (the callers in this
development always use the default `max_overlap`, i.e.
`Config.MAX_WORD_DIFF_OVERLAP = 200`). -/
def findCompactSuffixPrefixOverlap (lastCompact textCompact : Str)
    (minOverlap maxOverlap : Nat) : Nat :=
  if lastCompact = [] || textCompact = [] then 0
  else fcspoDown lastCompact textCompact minOverlap
    (min (min lastCompact.length textCompact.length) maxOverlap)

/-- `utils.is_redundant_text`: the candidate duplicates or is contained in
the last confirmed text, compared in normalized and in compact form. -/
def isRedundantText (candidate lastText : Str) : Bool :=
  let candNorm := normalizeSubtitleText candidate
  let lastNorm := normalizeSubtitleText lastText
  if candNorm = [] || lastNorm = [] then false
  else if candNorm = lastNorm then true
  else if decide (candNorm.length ≤ lastNorm.length) && strContains lastNorm candNorm then true
  else
    let candCompact := compactSubtitleText candidate
    let lastCompact := compactSubtitleText lastText
    if candCompact ≠ [] && lastCompact ≠ [] then
      if candCompact = lastCompact then true
      else decide (candCompact.length ≤ lastCompact.length) && strContains lastCompact candCompact
    else false

/-- `utils.is_continuation_text`: whether the current raw text continues
the same stream as the previous raw text. -/
def isContinuationText (previous current : Str) : Bool :=
  let prevCompact := compactSubtitleText previous
  let curCompact := compactSubtitleText current
  if prevCompact = [] || curCompact = [] then true
  else if strContains curCompact prevCompact || strContains prevCompact curCompact then true
  else
    let tailLen := min 60 prevCompact.length
    if decide (15 ≤ tailLen) &&
       strContains curCompact (prevCompact.drop (prevCompact.length - tailLen)) then true
    else
      let prefLen := min 30 (min prevCompact.length curCompact.length)
      if decide (15 ≤ prefLen) &&
         decide (prevCompact.take prefLen = curCompact.take prefLen) then true
      else false

/-- The downward loop of `utils.find_list_overlap` (overlap candidates
from the maximum down to 1). -/
def flOverlapDown (existing newItems : List Str) : Nat → Nat
  | 0 => 0
  | i + 1 =>
      if existing.drop (existing.length - (i + 1)) = newItems.take (i + 1) then i + 1
      else flOverlapDown existing newItems i

/-- `utils.find_list_overlap`: the longest suffix of `existing` that is a
prefix of `newItems`. -/
def findListOverlap (existing newItems : List Str) : Nat :=
  if existing = [] || newItems = [] then 0
  else flOverlapDown existing newItems (min existing.length newItems.length)

/-- The backward scanning loop of `utils._find_match_with_window`:
windows of `last_compact[max(0,i-20):i]` for `i = n, n-3, ...` while
`i > limit`, stopping when the window shrinks below 10 characters.  The
fuel argument only bounds the iteration count so that the recursion is
structural; the caller passes enough fuel for the loop to run to its
Python exit condition (each iteration decreases `i` by 3, and the loop
stops on its own once `i < 10`). -/
def winLoop (lastCompact newCompact : Str) (limit : Nat) : Nat → Nat → Option Nat
  | 0, _ => none
  | fuel + 1, i =>
      if i ≤ limit then none
      else
        let window := (lastCompact.take i).drop (i - 20)
        if window.length < 10 then none
        else
          match pyRfind newCompact window with
          | some pos => some (pos + window.length)
          | none => winLoop lastCompact newCompact limit fuel (i - 3)

/-- `utils._find_match_with_window` with the caller's `window_size = 20`:
returns the end index (in `new_compact`) of the matched window, `none`
for `-1`.  The backward search is bounded to the last 200 characters. -/
def findMatchWithWindow (lastCompact newCompact : Str) : Option Nat :=
  if lastCompact = [] || newCompact = [] then none
  else winLoop lastCompact newCompact (lastCompact.length - 200)
         lastCompact.length lastCompact.length

/-- The downward loop of strategy 6 of `utils.get_word_diff`: suffixes of
`last_compact` of decreasing length (at most 100, at least 10) are looked
up in `new_compact` by `rfind`; the first hit cuts the original new text
at the matched end. -/
def s6Down (lastCompact newCompact newText : Str) : Nat → Option Str
  | 0 => none
  | k + 1 =>
      if k + 1 < 10 then none
      else
        match pyRfind newCompact (lastCompact.drop (lastCompact.length - (k + 1))) with
        | some pos =>
            some (let delta := sliceFromCompactIndex newText (pos + (k + 1))
                  if delta ≠ [] then pyStrip delta else [])
        | none => s6Down lastCompact newCompact newText k

/-- Strategies 7 (compact suffix-prefix overlap), the reverse-window
match, and the final fallback of `utils.get_word_diff`. -/
def getWordDiffStage7 (lastCompact newCompact newText : Str) : Str :=
  let overlapLen := findCompactSuffixPrefixOverlap lastCompact newCompact 10 200
  if 0 < overlapLen then
    let delta := sliceFromCompactIndex newText overlapLen
    if delta ≠ [] then pyStrip delta else []
  else
    match findMatchWithWindow lastCompact newCompact with
    | some matchEndPos =>
        let delta := sliceFromCompactIndex newText matchEndPos
        if delta ≠ [] then pyStrip delta else []
    | none => newText

/-- Strategy 6 of `utils.get_word_diff` (compact suffix match), falling
through to stage 7. -/
def getWordDiffStage6 (lastCompact newCompact newText : Str) : Str :=
  match (if lastCompact ≠ [] && newCompact ≠ [] && decide (10 ≤ lastCompact.length)
         then s6Down lastCompact newCompact newText (min 100 lastCompact.length)
         else none) with
  | some r => r
  | none => getWordDiffStage7 lastCompact newCompact newText

/-- Strategy 5 of `utils.get_word_diff` (compact containment, last
occurrence), falling through to stage 6. -/
def getWordDiffStage5 (lastCompact newCompact newText : Str) : Str :=
  if lastCompact ≠ [] && newCompact ≠ [] && strContains newCompact lastCompact then
    match pyRfind newCompact lastCompact with
    | some compactPos =>
        let delta := sliceFromCompactIndex newText (compactPos + lastCompact.length)
        if delta ≠ [] then pyStrip delta else []
    | none => getWordDiffStage6 lastCompact newCompact newText
  else getWordDiffStage6 lastCompact newCompact newText

/-- Strategy 4 of `utils.get_word_diff` (word-level overlap), falling
through to the compact stages. -/
def getWordDiffStage4 (lastText newText : Str) : Str :=
  let lastWords := pyWords lastText
  let newWords := pyWords newText
  let overlapCount := findListOverlap lastWords newWords
  if 0 < overlapCount then
    let addedWords := newWords.drop overlapCount
    if addedWords ≠ [] then List.intercalate (S " ") addedWords else []
  else
    getWordDiffStage5 (compactSubtitleText lastText) (compactSubtitleText newText) newText

/-- `utils.get_word_diff`: the delta extractor; ordered strategies, first
match wins. -/
def getWordDiff (lastText newText : Str) : Str :=
  if lastText = [] then newText
  else if newText = [] then []
  else
    let lastT := cleanTextDisplay lastText
    let newT := cleanTextDisplay newText
    if isRedundantText newT lastT then []
    else if pyStartswith newT lastT then pyStrip (newT.drop lastT.length)
    else if strContains newT lastT then
      match pyRfind newT lastT with
      | some lastPos => pyStrip (newT.drop (lastPos + lastT.length))
      | none => getWordDiffStage4 lastT newT
    else getWordDiffStage4 lastT newT

/-- Wall-clock instants (`datetime`), at second granularity. -/
abbrev DT := Int

/-- `models.SubtitleEntry`: one committed transcript entry.  The cached
character/word counts of the Python class are derived data
(`len(text)` / `len(text.split())`) and are not duplicated here. -/
structure SubtitleEntry where
  text : Str
  timestamp : DT
  startTime : Option DT := none
  endTime : Option DT := none
deriving DecidableEq, Repr

/-- The stream-tracking state owned by the main window
(`#GlobalHistorySuffix`): confirmed compact history, trailing-suffix
anchor, desync/ambiguity counters, last raw snapshot, and the committed
entry list. -/
structure TrackerState where
  lastRawText : Str := []
  confirmedCompact : Str := []
  trailingSuffix : Str := []
  desyncCount : Nat := 0
  ambiguousSkipCount : Nat := 0
  lastGoodRawCompact : Str := []
  lastProcessedRaw : Str := []
  subtitles : List SubtitleEntry := []
deriving DecidableEq, Repr

/-- The punctuation set of `_join_stream_text` before which the joining
space is suppressed. -/
def noSpaceBefore : List Char :=
  ['.', ',', '!', '?', ';', ':', ')', ']', '\x7d', '%', '"', '\'', '”', '’', '…']

/-- The punctuation set of `_join_stream_text` after which the joining
space is suppressed. -/
def noSpaceAfter : List Char :=
  ['(', '[', '\x7b', '<', '"', '\'', '“', '‘']

/-- `_join_stream_text`: join streamed fragments, keeping a single space
except where punctuation rules suppress it (`left`/`right` in the source
are the right-stripped base and left-stripped addition). -/
def joinStreamText (base addition : Str) : Str :=
  if base = [] then pyStrip addition
  else if addition = [] then pyStrip base
  else if pyRstrip base = [] then pyLstrip addition
  else if pyLstrip addition = [] then pyRstrip base
  else if noSpaceBefore.contains (pyLstrip addition).headI ||
          noSpaceAfter.contains (pyRstrip base).getLastI then
    pyRstrip base ++ pyLstrip addition
  else pyRstrip base ++ S " " ++ pyLstrip addition

/-- `_confirmed_history_compact_tail`: the compact form of the last
`maxEntries` confirmed entries, truncated to the last `maxCompactLen`
characters. -/
def confirmedHistoryCompactTail (st : TrackerState)
    (maxEntries maxCompactLen : Nat) : Str :=
  if st.subtitles = [] then []
  else
    let tailEntries := st.subtitles.drop (st.subtitles.length - maxEntries)
    let combined :=
      List.intercalate (S " ") ((tailEntries.filter (fun e => e.text ≠ [])).map (·.text))
    let compact := compactSubtitleText combined
    if 0 < maxCompactLen ∧ maxCompactLen < compact.length then
      compact.drop (compact.length - maxCompactLen)
    else compact

/-- `_slice_incremental_part`: slice the raw text after the last
occurrence of a long-enough anchor, falling back to a compact
suffix-prefix overlap; `none` models the Python `None` (no overlap). -/
def sliceIncrementalPart (raw anchorCompact rawCompact : Str)
    (minAnchor minOverlap : Nat) : Option Str :=
  if raw = [] || anchorCompact = [] || rawCompact = [] then none
  else
    match (if minAnchor ≤ anchorCompact.length then pyRfind rawCompact anchorCompact else none) with
    | some idx =>
        some (pyStrip (sliceFromCompactIndex raw (idx + anchorCompact.length)))
    | none =>
        let overlapLen := findCompactSuffixPrefixOverlap anchorCompact rawCompact minOverlap 200
        if 0 < overlapLen then some (pyStrip (sliceFromCompactIndex raw overlapLen))
        else none

/-- `_extract_stream_delta`: the delta of the current raw against the
previous raw snapshot; `none` models the Python `None` (context switch). -/
def extractStreamDelta (raw lastRaw : Str) : Option Str :=
  if lastRaw = [] then none
  else
    let rawCompact := compactSubtitleText raw
    let lastCompact := compactSubtitleText lastRaw
    if rawCompact = [] || lastCompact = [] then some []
    else if rawCompact = lastCompact then some []
    else if strContains rawCompact lastCompact then
      let idx := (pyRfind rawCompact lastCompact).getD 0
      let start := idx + lastCompact.length
      if start = 0 ∨ rawCompact.length ≤ start then some []
      else some (pyStrip (sliceFromCompactIndex raw start))
    else if isContinuationText lastRaw raw then some []
    else none

/-- `_extract_new_part`: the part of the snapshot after the last
occurrence of the trailing suffix (whole snapshot when there is no
history or no match, empty when nothing follows the suffix). -/
def extractNewPart (trailingSuffix raw rawCompact : Str) : Str :=
  if trailingSuffix = [] then raw
  else
    match pyRfind rawCompact trailingSuffix with
    | some pos =>
        let startIdx := pos + trailingSuffix.length
        if rawCompact.length ≤ startIdx then []
        else sliceFromCompactIndex raw startIdx
    | none => raw

/-- `_soft_resync`: rebuild the confirmed history and trailing suffix
from the compact text of the last five confirmed entries (full reset only
when there are no entries).  The suffix length constant is 50. -/
def softResync (st : TrackerState) : TrackerState :=
  if st.subtitles = [] then
    { st with confirmedCompact := [], trailingSuffix := [] }
  else
    let recent :=
      List.intercalate (S " ")
        (((st.subtitles.drop (st.subtitles.length - 5)).filter (fun e => e.text ≠ [])).map (·.text))
    let cc := compactSubtitleText recent
    { st with
      confirmedCompact := cc,
      trailingSuffix := if 50 ≤ cc.length then cc.drop (cc.length - 50) else cc }

/-- The append decision of `_add_text_to_subtitles`: the last entry is
still open (updated less than 5 seconds ago) and the combined text stays
under the 300-character cap. -/
def canAppendEntry (lastEntry : SubtitleEntry) (now : DT) (text : Str) : Bool :=
  match lastEntry.endTime with
  | some e => decide (now - e < 5) && decide (lastEntry.text.length + text.length < 300)
  | none => false

/-- `_add_text_to_subtitles`: commit an accepted delta, either appending
to the still-open last entry or creating a new entry stamped to `now`.
Texts shorter than 3 characters are dropped. -/
def addTextToSubtitles (subtitles : List SubtitleEntry) (now : DT) (text : Str) :
    List SubtitleEntry :=
  if text = [] ∨ text.length < 3 then subtitles
  else
    match subtitles.getLast? with
    | some lastEntry =>
        if canAppendEntry lastEntry now text then
          subtitles.dropLast ++
            [{ lastEntry with
                text := joinStreamText lastEntry.text text,
                endTime := some now }]
        else
          subtitles ++ [{ text := text, timestamp := now, startTime := some now, endTime := some now }]
    | none =>
        subtitles ++ [{ text := text, timestamp := now, startTime := some now, endTime := some now }]

/-- The acceptance bookkeeping of `_prepare_preview_raw` and the tail of
`_process_raw_text`: append the compact delta to the confirmed history,
recompute the 50-character trailing suffix, commit the delta into the
entry list, and remember the last processed raw. -/
def finishAccept (st : TrackerState) (now : DT) (raw newPart : Str) :
    TrackerState × Option Str :=
  let newCompact := compactSubtitleText newPart
  let recentCompactTail := confirmedHistoryCompactTail st 12 5000
  if 20 ≤ newCompact.length ∧ recentCompactTail ≠ [] ∧
     strContains recentCompactTail newCompact then
    (st, none)
  else
    let confirmed := st.confirmedCompact ++ newCompact
    ({ st with
        confirmedCompact := confirmed,
        trailingSuffix :=
          if 50 ≤ confirmed.length then confirmed.drop (confirmed.length - 50) else confirmed,
        subtitles := addTextToSubtitles st.subtitles now newPart,
        lastProcessedRaw := raw },
     some newPart)

/-- The body of `_process_raw_text` after the fast-path duplicate check:
extract the new part, drop it if shorter than 3 characters (stripped),
refine it against the last confirmed entry with `get_word_diff`, drop
long deltas already present in the recent confirmed tail, then accept. -/
def processRawCore (st : TrackerState) (now : DT) (raw : Str) :
    TrackerState × Option Str :=
  let rawCompact := compactSubtitleText raw
  if rawCompact = [] then (st, none)
  else
    let newPart := extractNewPart st.trailingSuffix raw rawCompact
    if newPart = [] ∨ (pyStrip newPart).length < 3 then (st, none)
    else
      let newPart1 := pyStrip newPart
      let lastText := ((st.subtitles.getLast?).map (·.text)).getD []
      if lastText = [] then finishAccept st now raw newPart1
      else
        let refinedPart := getWordDiff lastText newPart1
        if refinedPart = [] ∨ (pyStrip refinedPart).length < 3 then (st, none)
        else finishAccept st now raw (pyStrip refinedPart)

/-- `_process_raw_text`: the global-history suffix-matching core.  The
second component is the delta committed to the entry list (`none` when
nothing was emitted). -/
def processRawText (st : TrackerState) (now : DT) (raw0 : Str) :
    TrackerState × Option Str :=
  if raw0 = [] then (st, none)
  else
    let raw := pyStrip raw0
    if raw = st.lastRawText then (st, none)
    else processRawCore { st with lastRawText := raw } now raw

/-- The acceptance state update of `_prepare_preview_raw`'s local
`accept`: reset both counters and remember the good raw compact. -/
def acceptState (st : TrackerState) (rawCompact : Str) : TrackerState :=
  { st with desyncCount := 0, ambiguousSkipCount := 0, lastGoodRawCompact := rawCompact }

/-- The desync bookkeeping of `_prepare_preview_raw`'s suffix-not-found
branch: increment the counter; on reaching the resync threshold 10,
soft-resync and accept the whole normalized snapshot. -/
def prepareDesyncStep (st : TrackerState) (normalized rawCompact : Str) :
    TrackerState × Option Str :=
  let st1 := { st with desyncCount := st.desyncCount + 1 }
  if 10 ≤ st1.desyncCount then (acceptState (softResync st1) rawCompact, some normalized)
  else (st1, none)

/-- The suffix-not-found branch of `_prepare_preview_raw`: first the
delta against the previous raw snapshot, then the recent-history anchor
(last 8 entries, at most 3000 compact characters, minimum anchor 20),
then the desync counter. -/
def prepareNotFound (st : TrackerState) (normalized rawCompact : Str) :
    TrackerState × Option Str :=
  let deltaAccept : Option Str :=
    match extractStreamDelta normalized st.lastRawText with
    | some d =>
        let d1 := pyStrip d
        if 1 ≤ d1.length ∧ d1.length < normalized.length then some d1 else none
    | none => none
  match deltaAccept with
  | some d1 => (acceptState st rawCompact, some d1)
  | none =>
      match sliceIncrementalPart normalized (confirmedHistoryCompactTail st 8 3000)
              rawCompact 20 8 with
      | some inc =>
          let inc1 := pyStrip inc
          if 1 ≤ inc1.length ∧ inc1.length < normalized.length then
            (acceptState st rawCompact, some inc1)
          else if inc1 = [] then (st, none)
          else prepareDesyncStep st normalized rawCompact
      | none => prepareDesyncStep st normalized rawCompact

/-- The ambiguity bookkeeping of `_prepare_preview_raw`'s multi-match
branch: increment the counter; on reaching the ambiguity threshold 6,
soft-resync and accept the whole normalized snapshot. -/
def prepareAmbiguousStep (st : TrackerState) (normalized rawCompact : Str) :
    TrackerState × Option Str :=
  let st1 := { st with ambiguousSkipCount := st.ambiguousSkipCount + 1 }
  if 6 ≤ st1.ambiguousSkipCount then (acceptState (softResync st1) rawCompact, some normalized)
  else (st1, none)

/-- The ambiguous (suffix found more than once) branch of
`_prepare_preview_raw`.  The predicted append span is measured from the
FIRST occurrence; the large-append threshold is `max(200, len(raw)//3)`;
the fallback anchor is the trailing suffix itself. -/
def prepareAmbiguous (st : TrackerState) (normalized rawCompact : Str) (firstPos : Nat) :
    TrackerState × Option Str :=
  let predictedAppend := rawCompact.length - (firstPos + st.trailingSuffix.length)
  if max 200 (rawCompact.length / 3) < predictedAppend then
    match sliceIncrementalPart normalized st.trailingSuffix rawCompact 20 8 with
    | some inc =>
        let inc1 := pyStrip inc
        if 1 ≤ inc1.length ∧ inc1.length < normalized.length then
          (acceptState st rawCompact, some inc1)
        else if inc1 = [] then (st, none)
        else prepareAmbiguousStep st normalized rawCompact
    | none => prepareAmbiguousStep st normalized rawCompact
  else (acceptState st rawCompact, some normalized)

/-- `_prepare_preview_raw`: normalization and gating of a raw preview
snapshot before it is handed to the core algorithm.  The second component
is the text passed on (`none` when the snapshot is rejected). -/
def preparePreviewRaw (st : TrackerState) (raw : Str) : TrackerState × Option Str :=
  let normalized := pyStrip (cleanTextDisplay raw)
  if normalized = [] then (st, none)
  else
    let rawCompact := compactSubtitleText normalized
    if rawCompact = [] then (st, none)
    else if st.trailingSuffix = [] then (acceptState st rawCompact, some normalized)
    else
      match pyFind rawCompact st.trailingSuffix with
      | none => prepareNotFound st normalized rawCompact
      | some firstPos =>
          let lastPos := (pyRfind rawCompact st.trailingSuffix).getD firstPos
          if firstPos ≠ lastPos then prepareAmbiguous st normalized rawCompact firstPos
          else (acceptState st rawCompact, some normalized)

/-- `_process_subtitle_segments` for a single snapshot, i.e. the composed
ingestion entrypoint: `_prepare_preview_raw` gating followed by
`_process_raw_text`. -/
def admitRawSnapshot (st : TrackerState) (now : DT) (raw : Str) :
    TrackerState × Option Str :=
  match preparePreviewRaw st raw with
  | (st1, some prepared) =>
      if prepared ≠ [] then processRawText st1 now prepared else (st1, none)
  | (st1, none) => (st1, none)

/-- Feed a sequence of snapshots through the composed ingestion
entrypoint, collecting the emitted deltas in order. -/
def admitSeq (st : TrackerState) (now : DT) : List Str → TrackerState × List Str
  | [] => (st, [])
  | raw :: rest =>
      match admitRawSnapshot st now raw with
      | (st1, out) =>
          match admitSeq st1 (now + 1000) rest with
          | (st2, outs) => (st2, (out.map ([·])).getD [] ++ outs)

/-- Feed a sequence of snapshots directly through `_process_raw_text`
(as `_drain_pending_previews` does for forced texts), collecting the
emitted deltas in order. -/
def processSeq (st : TrackerState) (now : DT) : List Str → TrackerState × List Str
  | [] => (st, [])
  | raw :: rest =>
      match processRawText st now raw with
      | (st1, out) =>
          match processSeq st1 (now + 1000) rest with
          | (st2, outs) => (st2, (out.map ([·])).getD [] ++ outs)

/-- Numeric value of an ASCII digit character. -/
def digitVal (c : Char) : Nat := c.toNat - '0'.toNat

/-- The timestamp-marker scan of `reflow_subtitles` (step 1): find
`[HH:MM:SS]` markers (the regex pattern of two digits, colon, two digits,
colon, two digits in brackets), emit the text before each marker as a
fresh entry stamped with the running timestamp, and restamp the running
timestamp from the marker when it parses as a valid time of day
(`strptime` raises on invalid fields, which the code ignores).  `acc`
accumulates the text scanned since the last marker. -/
def tsScan (baseDate : Int) (curTs : DT) (acc : Str) : Str → List SubtitleEntry
  | '[' :: d1 :: d2 :: ':' :: d3 :: d4 :: ':' :: d5 :: d6 :: ']' :: rest =>
      if pyIsDigit d1 && pyIsDigit d2 && pyIsDigit d3 && pyIsDigit d4 &&
         pyIsDigit d5 && pyIsDigit d6 then
        let pre := pyStrip acc
        let h := digitVal d1 * 10 + digitVal d2
        let mi := digitVal d3 * 10 + digitVal d4
        let s := digitVal d5 * 10 + digitVal d6
        let newTs : DT :=
          if h ≤ 23 ∧ mi ≤ 59 ∧ s ≤ 59 then
            baseDate * 86400 + (h * 3600 + mi * 60 + s : Nat)
          else curTs
        (if pre ≠ [] then [{ text := pre, timestamp := curTs }] else []) ++
          tsScan baseDate newTs [] rest
      else tsScan baseDate curTs (acc ++ ['[']) (d1 :: d2 :: ':' :: d3 :: d4 :: ':' :: d5 :: d6 :: ']' :: rest)
  | c :: rest => tsScan baseDate curTs (acc ++ [c]) rest
  | [] =>
      let remaining := pyStrip acc
      if remaining ≠ [] then [{ text := remaining, timestamp := curTs }] else []

/-- The scanning loop of `re.split` on the sentence pattern (an ender
`.?!` followed by whitespace); the greedy `\s+` consumes the whole
whitespace run.  The fuel argument only bounds the iteration count so
that the recursion is structural; the caller passes the text length,
which is always sufficient because every step consumes at least one
character. -/
def splitGo (acc : Str) : Nat → Str → List Str
  | _, [] => [acc]
  | 0, l => [acc ++ l]
  | fuel + 1, c :: rest =>
      if (c = '.' || c = '?' || c = '!') &&
         (match rest with | [] => false | c2 :: _ => pyIsSpace c2) then
        acc :: [c] :: splitGo [] fuel (rest.dropWhile pyIsSpace)
      else splitGo (acc ++ [c]) fuel rest

/-- `re.split` on the sentence pattern `([.?!])\s+`: the fragments with
the captured ender characters interleaved. -/
def splitSentences (l : Str) : List Str := splitGo [] l.length l

/-- The sentence reassembly loop used inside the merge loop of
`reflow_subtitles` (the variant that flushes a pending fragment before
starting a new one). -/
def reassembleMidGo (temp : Str) : List Str → List Str
  | [] => if temp ≠ [] then [temp] else []
  | f :: rest =>
      if f = S "." ∨ f = S "?" ∨ f = S "!" then (temp ++ f) :: reassembleMidGo [] rest
      else if temp ≠ [] then temp :: reassembleMidGo f rest
      else reassembleMidGo f rest

/-- The sentence reassembly loop used on the final buffer of
`reflow_subtitles` (the variant that overwrites a pending fragment). -/
def reassembleFinalGo (temp : Str) : List Str → List Str
  | [] => if temp ≠ [] then [temp] else []
  | f :: rest =>
      if f = S "." ∨ f = S "?" ∨ f = S "!" then (temp ++ f) :: reassembleFinalGo [] rest
      else reassembleFinalGo f rest

/-- Python `buffer_text.endswith(('.', '?', '!'))`. -/
def endsWithEnder (t : Str) : Bool :=
  match t.getLast? with
  | some c => c = '.' || c = '?' || c = '!'
  | none => false

/-- The per-iteration sentence split of the merge loop: the middle
sentences are committed with the buffer's timestamp, the last nonempty
one becomes the new buffer (Python keeps the old buffer when the last
fragment strips to nothing). -/
def processRealSentences (real : List Str) (buffer : SubtitleEntry) :
    List SubtitleEntry × SubtitleEntry :=
  let emitted :=
    (((real.take (real.length - 1)).map pyStrip).filter (· ≠ [])).map
      (fun s => ({ text := s, timestamp := buffer.timestamp } : SubtitleEntry))
  let buffer1 :=
    match real.getLast? with
    | some lastS =>
        let s := pyStrip lastS
        if s ≠ [] then ({ text := s, timestamp := buffer.timestamp } : SubtitleEntry)
        else buffer
    | none => buffer
  (emitted, buffer1)

/-- The final-buffer flush of `reflow_subtitles`: split the remaining
buffer at sentence enders and commit every nonempty sentence. -/
def finalFlush (buffer : SubtitleEntry) : List SubtitleEntry :=
  let bufferText := pyStrip buffer.text
  if bufferText = [] then []
  else
    (((reassembleFinalGo [] (splitSentences bufferText)).map pyStrip).filter (· ≠ [])).map
      (fun s => ({ text := s, timestamp := buffer.timestamp } : SubtitleEntry))

/-- The merge loop of `reflow_subtitles` (steps 2 and 3): split the
buffer at sentence enders, commit finished sentences, and merge an
unfinished buffer with the next entry unless the time gap exceeds 10
seconds. -/
def reflowMergeGo (buffer : SubtitleEntry) : List SubtitleEntry → List SubtitleEntry
  | [] => finalFlush buffer
  | nextEntry :: rest =>
      let bufferText := pyStrip buffer.text
      let sentences := splitSentences bufferText
      let step :=
        if 1 < sentences.length then
          processRealSentences (reassembleMidGo [] sentences) buffer
        else ([], buffer)
      let emitted := step.1
      let buffer1 := step.2
      let bufferText1 := pyStrip buffer1.text
      let timeDiff := nextEntry.timestamp - buffer1.timestamp
      if endsWithEnder bufferText1 then
        emitted ++ [buffer1] ++ reflowMergeGo nextEntry rest
      else if 10 < timeDiff then
        emitted ++ [buffer1] ++ reflowMergeGo nextEntry rest
      else
        emitted ++
          reflowMergeGo
            { buffer1 with
                text := bufferText1 ++ S " " ++ pyStrip nextEntry.text,
                endTime := nextEntry.endTime }
            rest

/-- `utils.reflow_subtitles`: split embedded `[HH:MM:SS]` markers,
re-split entries at sentence punctuation, and re-merge unfinished
fragments. -/
def reflowSubtitles (subtitles : List SubtitleEntry) : List SubtitleEntry :=
  if subtitles = [] then []
  else
    let expanded :=
      subtitles.flatMap (fun e => tsScan (e.timestamp / 86400) e.timestamp [] e.text)
    match expanded with
    | [] => []
    | b :: rest => reflowMergeGo b rest

/-- An alternating two-letter snapshot family ("xxx yyy", "yyy xxx",
...): each snapshot repeats the previous snapshot's trailing word and
adds one fresh three-character word, so every admission appends three
characters to the confirmed history. -/
def altSnapshots : Char → Char → Nat → List Str
  | _, _, 0 => []
  | x, y, m + 1 => [x, x, x, ' ', y, y, y] :: altSnapshots y x m

/-! ### Supporting lemmas -/

theorem processRawCore_lastRawText (st : TrackerState) (now : DT) (raw : Str) :
    (processRawCore st now raw).1.lastRawText = st.lastRawText := by
  unfold processRawCore finishAccept
  dsimp only
  repeat first
  | rfl
  | split

/-! ### Claims -/

/-- Claim C1: re-admitting an identical raw snapshot twice is idempotent:
whatever the first `_process_raw_text` call did with a snapshot, a second
consecutive call with the exact same snapshot emits no delta and leaves
the whole tracker state (confirmed history, trailing suffix, entry list)
unchanged, thanks to the `raw == self._last_raw_text` fast path. -/
theorem c1_readmission_idempotent (st : TrackerState) (now now2 : DT) (raw : Str) :
    processRawText (processRawText st now raw).1 now2 raw =
      ((processRawText st now raw).1, none) := by
  by_cases h0 : raw = []
  · simp [processRawText, h0]
  · by_cases h1 : pyStrip raw = st.lastRawText
    · simp [processRawText, h0, h1]
    · have h2 := processRawCore_lastRawText { st with lastRawText := pyStrip raw } now (pyStrip raw)
      simp only [processRawText, if_neg h0, if_neg h1]
      simp [h2]

theorem strIsPre_false_of_longer (pat l : Str) (h : l.length < pat.length) :
    strIsPre pat l = false := by
  induction pat generalizing l with
  | nil => simp at h
  | cons p ps ih =>
      cases l with
      | nil => rfl
      | cons c cs =>
          simp only [strIsPre, Bool.and_eq_false_iff]
          exact Or.inr (ih cs (by simpa using h))

theorem occAux_eq_nil_of_longer (pat hay : Str) (i : Nat) (h : hay.length < pat.length) :
    occAux pat hay i = [] := by
  induction hay generalizing i with
  | nil =>
      have hne : pat ≠ [] := by
        intro e
        rw [e] at h
        simp at h
      simp [occAux, hne]
  | cons c cs ih =>
      simp [occAux, strIsPre_false_of_longer pat (c :: cs) h,
        ih (i + 1) (Nat.lt_of_le_of_lt (Nat.le_succ _) h)]

theorem pyRfind_none_of_longer (hay pat : Str) (h : hay.length < pat.length) :
    pyRfind hay pat = none := by
  simp [pyRfind, occurrences, occAux_eq_nil_of_longer pat hay 0 h]

theorem altClean7 (x y : Char) (hsx : pyIsSpace x = false) (hsy : pyIsSpace y = false)
    (hzx : isZeroWidth x = false) (hzy : isZeroWidth y = false)
    (hdx : pyIsDigit x = false) (hdy : pyIsDigit y = false) :
    cleanTextDisplay [x, x, x, ' ', y, y, y] = [x, x, x, ' ', y, y, y] := by
  simp [cleanTextDisplay, yearSub, yearSubGo, hdx, hdy, removeZW, hzx, hzy,
    pyStrip, pyLstrip, pyRstrip, hsx, hsy,
    show isZeroWidth ' ' = false from rfl, show pyIsSpace ' ' = true from rfl,
    show pyIsDigit ' ' = false from rfl]

theorem altCompact7 (x y : Char) (hsx : pyIsSpace x = false) (hsy : pyIsSpace y = false)
    (hzx : isZeroWidth x = false) (hzy : isZeroWidth y = false) :
    compactSubtitleText [x, x, x, ' ', y, y, y] = [x, x, x, y, y, y] := by
  simp [compactSubtitleText, removeZW, hzx, hzy, pyStrip, pyLstrip, pyRstrip, hsx, hsy,
    show isZeroWidth ' ' = false from rfl, show pyIsSpace ' ' = true from rfl]

theorem altClean3 (x : Char) (hsx : pyIsSpace x = false) (hzx : isZeroWidth x = false) :
    cleanTextDisplay [x, x, x] = [x, x, x] := by
  simp [cleanTextDisplay, yearSub, yearSubGo, removeZW, hzx,
    pyStrip, pyLstrip, pyRstrip, hsx]

theorem altCompact3 (x : Char) (hsx : pyIsSpace x = false) (hzx : isZeroWidth x = false) :
    compactSubtitleText [x, x, x] = [x, x, x] := by
  simp [compactSubtitleText, removeZW, hzx, pyStrip, pyLstrip, pyRstrip, hsx]

theorem altNorm7 (x y : Char) (hsx : pyIsSpace x = false) (hsy : pyIsSpace y = false) :
    normalizeSubtitleText [x, x, x, ' ', y, y, y] = [x, x, x, ' ', y, y, y] := by
  simp [normalizeSubtitleText, collapseGo, hsx, hsy, pyStrip, pyLstrip, pyRstrip,
    show pyIsSpace ' ' = true from rfl]

theorem altNorm3 (x : Char) (hsx : pyIsSpace x = false) :
    normalizeSubtitleText [x, x, x] = [x, x, x] := by
  simp [normalizeSubtitleText, collapseGo, hsx, pyStrip, pyLstrip, pyRstrip]

theorem altWordDiff (x y : Char) (hsx : pyIsSpace x = false) (hsy : pyIsSpace y = false)
    (hzx : isZeroWidth x = false) (hzy : isZeroWidth y = false)
    (hdx : pyIsDigit x = false) (hdy : pyIsDigit y = false) :
    getWordDiff [x, x, x] [x, x, x, ' ', y, y, y] = [y, y, y] := by
  simp only [getWordDiff, altClean3 x hsx hzx, altClean7 x y hsx hsy hzx hzy hdx hdy]
  rw [show isRedundantText [x, x, x, ' ', y, y, y] [x, x, x] = false by
        simp [isRedundantText, altNorm7 x y hsx hsy, altNorm3 x hsx,
          altCompact7 x y hsx hsy hzx hzy, altCompact3 x hsx hzx]]
  rw [show pyStartswith [x, x, x, ' ', y, y, y] [x, x, x] = true by simp [pyStartswith, strIsPre]]
  simp [pyStrip, pyLstrip, pyRstrip, hsy, show pyIsSpace ' ' = true from rfl]

theorem altStep (st : TrackerState) (now : DT) (x y : Char)
    (hsx : pyIsSpace x = false) (hsy : pyIsSpace y = false)
    (hzx : isZeroWidth x = false) (hzy : isZeroWidth y = false)
    (hdx : pyIsDigit x = false) (hdy : pyIsDigit y = false) (hxy : x ≠ y)
    (tPrev : DT) (pre : List SubtitleEntry) (e : SubtitleEntry)
    (h1 : st.lastRawText = [y, y, y, ' ', x, x, x])
    (h4 : 6 < st.trailingSuffix.length)
    (h5 : st.subtitles = pre ++ [e])
    (h6 : e.text = [x, x, x])
    (h7 : e.endTime = some tPrev)
    (h8 : 5 ≤ now - tPrev) :
    processRawText st now [x, x, x, ' ', y, y, y] =
      ({ st with
          lastRawText := [x, x, x, ' ', y, y, y],
          confirmedCompact := st.confirmedCompact ++ [y, y, y],
          trailingSuffix :=
            if 50 ≤ (st.confirmedCompact ++ [y, y, y]).length then
              (st.confirmedCompact ++ [y, y, y]).drop ((st.confirmedCompact ++ [y, y, y]).length - 50)
            else st.confirmedCompact ++ [y, y, y],
          subtitles := (pre ++ [e]) ++
            [{ text := [y, y, y], timestamp := now, startTime := some now, endTime := some now }],
          lastProcessedRaw := [x, x, x, ' ', y, y, y] },
       some [y, y, y]) := by
  have hne : ([x, x, x, ' ', y, y, y] : Str) ≠ st.lastRawText := by
    rw [h1]
    simp [hxy]
  have hstrip7 : pyStrip [x, x, x, ' ', y, y, y] = [x, x, x, ' ', y, y, y] := by
    simp [pyStrip, pyLstrip, pyRstrip, hsx, hsy]
  have hstrip3 : pyStrip [y, y, y] = [y, y, y] := by
    simp [pyStrip, pyLstrip, pyRstrip, hsy]
  have hsuffne : st.trailingSuffix ≠ [] := by
    intro e0
    rw [e0] at h4
    simp at h4
  have hrfind : pyRfind [x, x, x, y, y, y] st.trailingSuffix = none :=
    pyRfind_none_of_longer [x, x, x, y, y, y] st.trailingSuffix h4
  have hnotlt : ¬(now - tPrev < 5) := not_lt.mpr h8
  have hcan : canAppendEntry e now [y, y, y] = false := by
    simp [canAppendEntry, h7, hnotlt]
  unfold processRawText
  rw [if_neg (by simp), hstrip7, if_neg hne]
  unfold processRawCore
  dsimp only
  rw [altCompact7 x y hsx hsy hzx hzy]
  rw [show extractNewPart st.trailingSuffix [x, x, x, ' ', y, y, y] [x, x, x, y, y, y] =
        [x, x, x, ' ', y, y, y] from by simp [extractNewPart, hsuffne, hrfind]]
  rw [if_neg (by simp)]
  rw [hstrip7]
  simp only [h5, List.getLast?_concat, Option.map_some', Option.getD_some, h6]
  rw [if_neg (by simp)]
  rw [if_neg (by simp)]
  rw [altWordDiff x y hsx hsy hzx hzy hdx hdy, hstrip3]
  rw [if_neg (by simp)]
  unfold finishAccept
  dsimp only
  rw [altCompact3 y hsy hzy]
  rw [if_neg (by simp)]
  simp [addTextToSubtitles, List.getLast?_concat, hcan]

theorem altRun (m : Nat) (st : TrackerState) (now : DT) (x y : Char)
    (hsx : pyIsSpace x = false) (hsy : pyIsSpace y = false)
    (hzx : isZeroWidth x = false) (hzy : isZeroWidth y = false)
    (hdx : pyIsDigit x = false) (hdy : pyIsDigit y = false) (hxy : x ≠ y)
    (tPrev : DT) (pre : List SubtitleEntry) (e : SubtitleEntry)
    (h1 : st.lastRawText = [y, y, y, ' ', x, x, x])
    (h3 : 9 ≤ st.confirmedCompact.length)
    (h4 : 6 < st.trailingSuffix.length)
    (h5 : st.subtitles = pre ++ [e])
    (h6 : e.text = [x, x, x])
    (h7 : e.endTime = some tPrev)
    (h8 : 5 ≤ now - tPrev) :
    (processSeq st now (altSnapshots x y m)).1.confirmedCompact.length =
      st.confirmedCompact.length + 3 * m := by
  induction m generalizing st now x y tPrev pre e with
  | zero => simp [altSnapshots, processSeq]
  | succ m ih =>
      rw [show altSnapshots x y (m + 1) =
            [x, x, x, ' ', y, y, y] :: altSnapshots y x m from rfl]
      simp only [processSeq]
      rw [altStep st now x y hsx hsy hzx hzy hdx hdy hxy tPrev pre e h1 h4 h5 h6 h7 h8]
      dsimp only
      have hlen : (st.confirmedCompact ++ [y, y, y]).length = st.confirmedCompact.length + 3 := by
        simp
      have ih2 := ih
        ({ st with
            lastRawText := [x, x, x, ' ', y, y, y],
            confirmedCompact := st.confirmedCompact ++ [y, y, y],
            trailingSuffix :=
              if 50 ≤ (st.confirmedCompact ++ [y, y, y]).length then
                (st.confirmedCompact ++ [y, y, y]).drop ((st.confirmedCompact ++ [y, y, y]).length - 50)
              else st.confirmedCompact ++ [y, y, y],
            subtitles := (pre ++ [e]) ++
              [{ text := [y, y, y], timestamp := now, startTime := some now, endTime := some now }],
            lastProcessedRaw := [x, x, x, ' ', y, y, y] })
        (now + 1000) y x hsy hsx hzy hzx hdy hdx (Ne.symm hxy) now (pre ++ [e])
        { text := [y, y, y], timestamp := now, startTime := some now, endTime := some now }
        rfl
        (by simp [hlen]; omega)
        (by
          dsimp only
          split
          · rw [List.length_drop]
            omega
          · rw [hlen]
            omega)
        rfl rfl rfl
        (by simp)
      rw [ih2]
      rw [hlen]
      ring

theorem processSeq_cons_fst (st : TrackerState) (now : DT) (r : Str) (rest : List Str) :
    (processSeq st now (r :: rest)).1 =
      (processSeq (processRawText st now r).1 (now + 1000) rest).1 := by
  rw [show processSeq st now (r :: rest) =
        (match processRawText st now r with
         | (st1, out) =>
            match processSeq st1 (now + 1000) rest with
            | (st2, outs) => (st2, (out.map ([·])).getD [] ++ outs)) from rfl]

theorem altGrowth (n : Nat) :
    (processSeq {} 0 (altSnapshots 'a' 'b' (n + 2))).1.confirmedCompact.length = 9 + 3 * n := by
  rw [show altSnapshots 'a' 'b' (n + 2) =
        ['a', 'a', 'a', ' ', 'b', 'b', 'b'] :: ['b', 'b', 'b', ' ', 'a', 'a', 'a'] ::
          altSnapshots 'a' 'b' n from rfl]
  rw [processSeq_cons_fst, processSeq_cons_fst]
  rw [show (processRawText (processRawText ({} : TrackerState) 0
        ['a', 'a', 'a', ' ', 'b', 'b', 'b']).1 (0 + 1000) ['b', 'b', 'b', ' ', 'a', 'a', 'a']).1 =
      ({ lastRawText := ['b', 'b', 'b', ' ', 'a', 'a', 'a'],
         confirmedCompact := ['a', 'a', 'a', 'b', 'b', 'b', 'a', 'a', 'a'],
         trailingSuffix := ['a', 'a', 'a', 'b', 'b', 'b', 'a', 'a', 'a'],
         lastProcessedRaw := ['b', 'b', 'b', ' ', 'a', 'a', 'a'],
         subtitles := [{ text := ['a', 'a', 'a', ' ', 'b', 'b', 'b'], timestamp := 0,
                         startTime := some 0, endTime := some 0 },
                       { text := ['a', 'a', 'a'], timestamp := 1000,
                         startTime := some 1000, endTime := some 1000 }] } : TrackerState)
      from by decide]
  have h := altRun n
    ({ lastRawText := ['b', 'b', 'b', ' ', 'a', 'a', 'a'],
       confirmedCompact := ['a', 'a', 'a', 'b', 'b', 'b', 'a', 'a', 'a'],
       trailingSuffix := ['a', 'a', 'a', 'b', 'b', 'b', 'a', 'a', 'a'],
       lastProcessedRaw := ['b', 'b', 'b', ' ', 'a', 'a', 'a'],
       subtitles := [{ text := ['a', 'a', 'a', ' ', 'b', 'b', 'b'], timestamp := 0,
                       startTime := some 0, endTime := some 0 },
                     { text := ['a', 'a', 'a'], timestamp := 1000,
                       startTime := some 1000, endTime := some 1000 }] } : TrackerState)
    (0 + 1000 + 1000) 'a' 'b' (by decide) (by decide) (by decide) (by decide) (by decide)
    (by decide) (by decide) 1000
    [{ text := ['a', 'a', 'a', ' ', 'b', 'b', 'b'], timestamp := 0,
       startTime := some 0, endTime := some 0 }]
    { text := ['a', 'a', 'a'], timestamp := 1000, startTime := some 1000, endTime := some 1000 }
    rfl (by decide) (by decide) rfl rfl rfl (by decide)
  dsimp only at h
  rw [h]
  have h9 : (['a', 'a', 'a', 'b', 'b', 'b', 'a', 'a', 'a'] : Str).length = 9 := rfl
  omega

/-- Claim C4 counterexample: the confirmed compacted history is NOT
bounded by a recent-window cap.  Feeding 1700 snapshots of the
alternating two-letter family through `_process_raw_text` from the reset
state leaves a reachable state whose confirmed history is 5103 characters
long, exceeding every recent-window constant the tracker uses (50, 3000,
5000); no oldest content is ever discarded on acceptance. -/
theorem c4_counterexample :
    5000 < (processSeq {} 0 (altSnapshots 'a' 'b' 1700)).1.confirmedCompact.length := by
  have h := altGrowth 1698
  norm_num at h
  omega

set_option linter.unreachableTactic false in
set_option linter.unusedTactic false in
/-- Claim C4 (amended): on every acceptance `_process_raw_text` appends
the compact form of the emitted delta to the confirmed history in full
and discards nothing; the history only shrinks on soft-resync or reset,
so it grows without bound over a suitable sequence of admissions. -/
theorem c4_append_no_discard (st : TrackerState) (now : DT) (raw d : Str)
    (h : (processRawText st now raw).2 = some d) :
    (processRawText st now raw).1.confirmedCompact =
      st.confirmedCompact ++ compactSubtitleText d := by
  revert h
  unfold processRawText processRawCore finishAccept
  dsimp only
  repeat' first
  | (intro h
     cases h)
  | (intro h
     injection h with h
     subst h
     rfl)
  | split
  all_goals rfl

/-- Witness for C4's amended theorem: a concrete acceptance from the
reset state appends exactly the compact form of the emitted delta. -/
theorem c4_append_no_discard_witness :
    (processRawText {} 0 (S "hello")).2 = some (S "hello") ∧
    (processRawText {} 0 (S "hello")).1.confirmedCompact =
      ([] : Str) ++ compactSubtitleText (S "hello") :=
  ⟨by decide, c4_append_no_discard {} 0 (S "hello") (S "hello") (by decide)⟩

/-- Claim C7 counterexample: feeding `["A", "A B", "A B C"]` into the
ingestion entrypoint from the reset state does NOT emit the deltas
`"A"`, `"B"`, `"C"`: the 3-character minimum-length gate of
`_process_raw_text` silently discards the 1-character new parts. -/
theorem c7_counterexample :
    (admitSeq {} 0 [S "A", S "A B", S "A B C"]).2 ≠ [S "A", S "B", S "C"] := by decide

/-- Claim C7 (amended): feeding `["A", "A B", "A B C"]` into the
ingestion entrypoint from the reset state emits exactly one delta,
`"A B"`: the initial `"A"` (length 1) and the final increment `"C"`
(length 1) fall under the 3-character minimum of `_process_raw_text` and
are discarded; only the second snapshot's full text is committed. -/
theorem c7_run_emissions :
    (admitSeq {} 0 [S "A", S "A B", S "A B C"]).2 = [S "A B"] := by decide

/-- Claim C9: reflowing a single entry whose text is two sentences
separated by sentence punctuation yields exactly two entries, splitting
at the punctuation boundary, both carrying the original timestamp (so
the second timestamp is ≥ the first); the input entry is not part of the
output, which is built from fresh entries. -/
theorem c9_reflow_two_sentences :
    reflowSubtitles [{ text := S "문장1. 문장2.", timestamp := 0 }] =
      [{ text := S "문장1.", timestamp := 0 }, { text := S "문장2.", timestamp := 0 }] ∧
    (0 : DT) ≤ 0 := by
  constructor
  · decide
  · decide

/-- Claim C6 counterexample: when the previous text occurs in the
current text but the current text also STARTS with the previous text,
`get_word_diff` does not anchor on the last occurrence: the simple-append
strategy fires first and returns everything after the FIRST occurrence. -/
theorem c6_counterexample :
    strContains (S "ABC ABC MORE") (S "ABC") = true ∧
    getWordDiff (S "ABC") (S "ABC ABC MORE") = S "ABC MORE" ∧
    S "ABC MORE" ≠
      pyStrip ((S "ABC ABC MORE").drop
        (((pyRfind (S "ABC ABC MORE") (S "ABC")).getD 0) + (S "ABC").length)) := by
  refine ⟨by decide, by decide, by decide⟩

/-- Claim C6 (amended): when the previous text occurs in the current
text, the pair is not redundant, and the current text does not START
with the previous text (the simple-append strategy takes precedence),
`get_word_diff` anchors on the LAST occurrence of the (cleaned) previous
text and returns everything after it, whitespace-trimmed; in particular
`get_word_diff("ABC", "XYZ ABC ABC MORE") = "MORE"`. -/
theorem c6_last_occurrence_anchor (lastText newText : Str)
    (h1 : lastText ≠ []) (h2 : newText ≠ [])
    (hred : isRedundantText (cleanTextDisplay newText) (cleanTextDisplay lastText) = false)
    (hpre : pyStartswith (cleanTextDisplay newText) (cleanTextDisplay lastText) = false)
    (p : Nat)
    (hrf : pyRfind (cleanTextDisplay newText) (cleanTextDisplay lastText) = some p) :
    getWordDiff lastText newText =
      pyStrip ((cleanTextDisplay newText).drop (p + (cleanTextDisplay lastText).length)) := by
  have hc : strContains (cleanTextDisplay newText) (cleanTextDisplay lastText) = true := by
    unfold strContains pyFind
    cases hoc : occurrences (cleanTextDisplay newText) (cleanTextDisplay lastText) with
    | nil =>
        rw [pyRfind, hoc] at hrf
        cases hrf
    | cons a t => simp
  unfold getWordDiff
  rw [if_neg h1, if_neg h2]
  simp only [hred, hpre, hc, Bool.false_eq_true, if_false, if_true, hrf]

/-- Witness for C6's amended theorem at the claim's own example: the
last-occurrence anchor yields exactly `"MORE"`. -/
theorem c6_witness : getWordDiff (S "ABC") (S "XYZ ABC ABC MORE") = S "MORE" := by
  have h := c6_last_occurrence_anchor (S "ABC") (S "XYZ ABC ABC MORE") (by decide) (by decide)
    (by decide) (by decide) 8 (by decide)
  rw [h]
  decide

set_option maxRecDepth 100000 in
/-- Claim C2 counterexample: the trailing suffix occurs twice in the
compacted snapshot (first at 1, last at 311); anchoring on the LAST
occurrence implies a span of 3 characters, within both the 200-character
and the one-third bound, so the claim demands acceptance of that delta —
but the code measures the span from the FIRST occurrence, exceeds
`max(200, len//3)`, fails the trailing-suffix-anchored fallback (the
10-character suffix is below the minimum anchor 20 and has no
suffix-prefix overlap), and rejects the snapshot, merely incrementing
the ambiguity counter. -/
theorem c2_counterexample :
    pyFind (S "Zabcdefghij" ++ List.replicate 300 'k' ++ S "abcdefghijmno") (S "abcdefghij") =
      some 1 ∧
    pyRfind (S "Zabcdefghij" ++ List.replicate 300 'k' ++ S "abcdefghijmno") (S "abcdefghij") =
      some 311 ∧
    (S "Zabcdefghij" ++ List.replicate 300 'k' ++ S "abcdefghijmno").length - (311 + 10) ≤ 200 ∧
    (S "Zabcdefghij" ++ List.replicate 300 'k' ++ S "abcdefghijmno").length - (311 + 10) ≤
      (S "Zabcdefghij" ++ List.replicate 300 'k' ++ S "abcdefghijmno").length / 3 ∧
    preparePreviewRaw { trailingSuffix := S "abcdefghij" }
        (S "Zabcdefghij" ++ List.replicate 300 'k' ++ S "abcdefghijmno") =
      ({ trailingSuffix := S "abcdefghij", ambiguousSkipCount := 1 }, none) := by
  refine ⟨by decide, by decide, by decide, by decide, by decide⟩

/-- Claim C2 (amended): in the ambiguous branch (trailing suffix found
more than once), the predicted new-content span is measured from the
FIRST occurrence, the large-span test is `span > max(200, len//3)`
(exceeding BOTH bounds, not either), and the fallback anchors on the
trailing suffix itself via `_slice_incremental_part` (minimum anchor
20); repeated ambiguity at threshold 6 (inside `prepareAmbiguousStep`)
forces soft-resync and accepts the full snapshot; when the span test is
not exceeded the full normalized snapshot is accepted (its new part is
anchored at the LAST suffix occurrence later, by `_extract_new_part`). -/
theorem c2_ambiguous_branch (st : TrackerState) (raw : Str) (f l : Nat)
    (hn : pyStrip (cleanTextDisplay raw) ≠ [])
    (hc : compactSubtitleText (pyStrip (cleanTextDisplay raw)) ≠ [])
    (hs : st.trailingSuffix ≠ [])
    (hf : pyFind (compactSubtitleText (pyStrip (cleanTextDisplay raw))) st.trailingSuffix = some f)
    (hl : pyRfind (compactSubtitleText (pyStrip (cleanTextDisplay raw))) st.trailingSuffix = some l)
    (hfl : f ≠ l) :
    preparePreviewRaw st raw =
      (if max 200 ((compactSubtitleText (pyStrip (cleanTextDisplay raw))).length / 3) <
          (compactSubtitleText (pyStrip (cleanTextDisplay raw))).length -
            (f + st.trailingSuffix.length) then
        match sliceIncrementalPart (pyStrip (cleanTextDisplay raw)) st.trailingSuffix
                (compactSubtitleText (pyStrip (cleanTextDisplay raw))) 20 8 with
        | some inc =>
            if 1 ≤ (pyStrip inc).length ∧
               (pyStrip inc).length < (pyStrip (cleanTextDisplay raw)).length then
              (acceptState st (compactSubtitleText (pyStrip (cleanTextDisplay raw))),
               some (pyStrip inc))
            else if pyStrip inc = [] then (st, none)
            else prepareAmbiguousStep st (pyStrip (cleanTextDisplay raw))
                   (compactSubtitleText (pyStrip (cleanTextDisplay raw)))
        | none => prepareAmbiguousStep st (pyStrip (cleanTextDisplay raw))
                    (compactSubtitleText (pyStrip (cleanTextDisplay raw)))
       else (acceptState st (compactSubtitleText (pyStrip (cleanTextDisplay raw))),
             some (pyStrip (cleanTextDisplay raw)))) := by
  unfold preparePreviewRaw
  dsimp only
  rw [if_neg hn, if_neg hc, if_neg hs]
  simp only [hf, hl, Option.getD_some]
  rw [if_pos hfl]
  unfold prepareAmbiguous
  rfl

/-- Witness for C2's amended theorem: an ambiguous snapshot whose
first-occurrence span stays within the threshold is accepted whole. -/
theorem c2_witness :
    preparePreviewRaw ({ trailingSuffix := S "ab" } : TrackerState) (S "abzab") =
      (acceptState { trailingSuffix := S "ab" } (S "abzab"), some (S "abzab")) := by
  have h := c2_ambiguous_branch { trailingSuffix := S "ab" } (S "abzab") 0 3
    (by decide) (by decide) (by decide) (by decide) (by decide) (by decide)
  rw [h]
  decide

/-- Claim C3: when the trailing suffix is not found in the compacted
snapshot and both fallbacks fail (the delta against the last raw
snapshot yields nothing usable, and the recent-history anchor search
over the last 8 entries / 3000 compact characters finds no anchor), the
snapshot increments the desync counter; on reaching threshold 10 the
tracker soft-resyncs, accepts the snapshot's full normalized content,
and the desync counter is zero afterwards.  The embedding is a total
function, so no exception can be raised. -/
theorem c3_desync_step (st : TrackerState) (raw : Str)
    (hn : pyStrip (cleanTextDisplay raw) ≠ [])
    (hc : compactSubtitleText (pyStrip (cleanTextDisplay raw)) ≠ [])
    (hs : st.trailingSuffix ≠ [])
    (hf : pyFind (compactSubtitleText (pyStrip (cleanTextDisplay raw))) st.trailingSuffix = none)
    (hd : ∀ d, extractStreamDelta (pyStrip (cleanTextDisplay raw)) st.lastRawText = some d →
          pyStrip d = [])
    (hi : sliceIncrementalPart (pyStrip (cleanTextDisplay raw))
            (confirmedHistoryCompactTail st 8 3000)
            (compactSubtitleText (pyStrip (cleanTextDisplay raw))) 20 8 = none) :
    preparePreviewRaw st raw =
      (if 10 ≤ st.desyncCount + 1 then
        (acceptState (softResync { st with desyncCount := st.desyncCount + 1 })
           (compactSubtitleText (pyStrip (cleanTextDisplay raw))),
         some (pyStrip (cleanTextDisplay raw)))
       else ({ st with desyncCount := st.desyncCount + 1 }, none)) ∧
    (10 ≤ st.desyncCount + 1 →
      (preparePreviewRaw st raw).1.desyncCount = 0 ∧
      (preparePreviewRaw st raw).2 = some (pyStrip (cleanTextDisplay raw))) := by
  have hmain : preparePreviewRaw st raw =
      (if 10 ≤ st.desyncCount + 1 then
        (acceptState (softResync { st with desyncCount := st.desyncCount + 1 })
           (compactSubtitleText (pyStrip (cleanTextDisplay raw))),
         some (pyStrip (cleanTextDisplay raw)))
       else ({ st with desyncCount := st.desyncCount + 1 }, none)) := by
    unfold preparePreviewRaw
    dsimp only
    rw [if_neg hn, if_neg hc, if_neg hs]
    simp only [hf]
    unfold prepareNotFound
    dsimp only
    rcases hesd : extractStreamDelta (pyStrip (cleanTextDisplay raw)) st.lastRawText with _ | d
    · simp only [hesd]
      rw [hi]
      unfold prepareDesyncStep
      rfl
    · have hd2 := hd d hesd
      simp only [hesd, hd2]
      rw [if_neg (by simp)]
      rw [hi]
      unfold prepareDesyncStep
      rfl
  refine ⟨hmain, fun h10 => ?_⟩
  rw [hmain, if_pos h10]
  exact ⟨rfl, rfl⟩

/-- Witness for C3: from a desynchronized state with counter 9, a tenth
non-anchoring snapshot triggers soft-resync, is accepted whole, and
resets the counter to zero. -/
theorem c3_witness :
    preparePreviewRaw ({ trailingSuffix := S "qqqq", desyncCount := 9 } : TrackerState)
        (S "completely new text") =
      (({ lastGoodRawCompact := S "completelynewtext" } : TrackerState),
       some (S "completely new text")) := by
  have h := c3_desync_step { trailingSuffix := S "qqqq", desyncCount := 9 }
    (S "completely new text") (by decide) (by decide) (by decide) (by decide)
    (fun d hd => by
      rw [show extractStreamDelta (pyStrip (cleanTextDisplay (S "completely new text")))
            (([] : Str)) = none from rfl] at hd
      cases hd)
    (by decide)
  rw [h.1]
  decide

/-- Claim C8: for every accepted delta (the ingestion path only commits
stripped texts of length at least 3), `_add_text_to_subtitles` appends
to the last entry (joined by `_join_stream_text` and refreshing its end
time) exactly when that entry's end time is less than 5 seconds old and
the combined length stays under the 300-character cap; otherwise —
including whenever the combined length would reach the cap — a fresh
entry stamped to `now` is created instead of growing the last entry
without bound. -/
theorem c8_append_or_new_entry (subtitles : List SubtitleEntry) (now : DT) (text : Str)
    (lastEntry : SubtitleEntry)
    (hlen : 3 ≤ text.length)
    (hlast : subtitles.getLast? = some lastEntry) :
    addTextToSubtitles subtitles now text =
      (if canAppendEntry lastEntry now text then
        subtitles.dropLast ++
          [{ lastEntry with text := joinStreamText lastEntry.text text, endTime := some now }]
       else subtitles ++
          [{ text := text, timestamp := now, startTime := some now, endTime := some now }]) ∧
    (300 ≤ lastEntry.text.length + text.length →
      addTextToSubtitles subtitles now text =
        subtitles ++
          [{ text := text, timestamp := now, startTime := some now, endTime := some now }]) := by
  have hne : text ≠ [] := by
    intro e
    rw [e] at hlen
    simp at hlen
  have hmain : addTextToSubtitles subtitles now text =
      (if canAppendEntry lastEntry now text then
        subtitles.dropLast ++
          [{ lastEntry with text := joinStreamText lastEntry.text text, endTime := some now }]
       else subtitles ++
          [{ text := text, timestamp := now, startTime := some now, endTime := some now }]) := by
    unfold addTextToSubtitles
    rw [if_neg (by
      push_neg
      exact ⟨hne, by omega⟩)]
    rw [hlast]
  refine ⟨hmain, fun hcap => ?_⟩
  have hfalse : canAppendEntry lastEntry now text = false := by
    unfold canAppendEntry
    cases he : lastEntry.endTime with
    | none => rfl
    | some e0 =>
        simp [show ¬(lastEntry.text.length + text.length < 300) from by omega]
  rw [hmain, hfalse]
  simp

/-- Witness for C8: a delta arriving 2 seconds after a short open entry
is appended with a single joining space and a refreshed end time. -/
theorem c8_witness :
    addTextToSubtitles [{ text := S "abc", timestamp := 0, startTime := some 0, endTime := some 0 }]
        2 (S "def") =
      [{ text := S "abc def", timestamp := 0, startTime := some 0, endTime := some 2 }] := by
  have h := c8_append_or_new_entry
    [{ text := S "abc", timestamp := 0, startTime := some 0, endTime := some 0 }] 2 (S "def")
    { text := S "abc", timestamp := 0, startTime := some 0, endTime := some 0 }
    (by decide) (by decide)
  rw [h.1]
  decide

theorem pyRstrip_eq_rdropWhile (l : Str) : pyRstrip l = List.rdropWhile pyIsSpace l := rfl

theorem pyLstrip_idem (l : Str) : pyLstrip (pyLstrip l) = pyLstrip l :=
  List.dropWhile_idempotent pyIsSpace l

theorem pyLstrip_rstrip (l : Str) (h : pyLstrip l = l) :
    pyLstrip (pyRstrip l) = pyRstrip l := by
  obtain ⟨t, ht⟩ := List.rdropWhile_prefix pyIsSpace (l := l)
  rw [← pyRstrip_eq_rdropWhile] at ht
  cases hr : pyRstrip l with
  | nil => rfl
  | cons c rest =>
      have hl : l = c :: (rest ++ t) := by
        rw [← ht, hr]
        simp
      rw [hl] at h
      have hc : pyIsSpace c = false := by
        by_contra hcc
        rw [Bool.not_eq_false] at hcc
        simp only [pyLstrip, List.dropWhile_cons, hcc, if_true] at h
        have hle := (List.dropWhile_suffix (l := rest ++ t) pyIsSpace).length_le
        have h2 := congrArg List.length h
        simp only [List.length_cons] at h2
        omega
      simp [pyLstrip, List.dropWhile_cons, hc]

theorem pyStrip_idem (l : Str) : pyStrip (pyStrip l) = pyStrip l := by
  show pyRstrip (pyLstrip (pyRstrip (pyLstrip l))) = pyRstrip (pyLstrip l)
  rw [pyLstrip_rstrip (pyLstrip l) (pyLstrip_idem l)]
  rw [pyRstrip_eq_rdropWhile, pyRstrip_eq_rdropWhile, List.rdropWhile_idempotent]

theorem pyLstrip_of_stripped (l : Str) (h : pyStrip l = l) : pyLstrip l = l := by
  have hsuf : pyLstrip l <:+ l := List.dropWhile_suffix _
  have hlen1 : (pyRstrip (pyLstrip l)).length = l.length := by
    rw [show pyRstrip (pyLstrip l) = pyStrip l from rfl, h]
  have hlen2 : (pyRstrip (pyLstrip l)).length ≤ (pyLstrip l).length := by
    rw [pyRstrip_eq_rdropWhile]
    exact (List.rdropWhile_prefix pyIsSpace (l := pyLstrip l)).length_le
  exact hsuf.eq_of_length (Nat.le_antisymm hsuf.length_le (by omega))

theorem joinStreamText_length_ge (base addition : Str)
    (ha : pyStrip addition = addition) (hlen : 3 ≤ addition.length) :
    3 ≤ (joinStreamText base addition).length := by
  unfold joinStreamText
  rw [pyLstrip_of_stripped addition ha]
  split
  · rw [ha]
    exact hlen
  · split
    · simp_all
    · split
      · exact hlen
      · split
        · simp only [List.length_append]
          omega
        · simp only [List.length_append, show (S " ").length = 1 from rfl]
          omega

theorem addTextToSubtitles_min_length (subtitles : List SubtitleEntry) (now : DT) (text : Str)
    (ht : pyStrip text = text)
    (hinv : ∀ e ∈ subtitles, 3 ≤ e.text.length) :
    ∀ e ∈ addTextToSubtitles subtitles now text, 3 ≤ e.text.length := by
  unfold addTextToSubtitles
  split
  · exact hinv
  · rename_i hgate
    push_neg at hgate
    split
    · rename_i lastEntry hlast
      split
      · intro e he
        rcases List.mem_append.mp he with hmem | hmem
        · exact hinv e ((List.dropLast_sublist subtitles).mem hmem)
        · rcases List.mem_singleton.mp hmem with rfl
          exact joinStreamText_length_ge lastEntry.text text ht hgate.2
      · intro e he
        rcases List.mem_append.mp he with hmem | hmem
        · exact hinv e hmem
        · rcases List.mem_singleton.mp hmem with rfl
          exact hgate.2
    · intro e he
      rcases List.mem_append.mp he with hmem | hmem
      · exact hinv e hmem
      · rcases List.mem_singleton.mp hmem with rfl
        exact hgate.2

/-- Claim C10: in the ingestion path `_process_raw_text`, any extracted new
part whose stripped length is below 3 characters is silently discarded: the
call emits nothing and leaves the confirmed history, trailing suffix and
subtitle list untouched; consequently no committed `SubtitleEntry` ever
carries a text shorter than 3 characters. -/
theorem c10_short_delta_discarded (st : TrackerState) (now : DT) (raw : Str) :
    ((pyStrip (extractNewPart st.trailingSuffix (pyStrip raw)
        (compactSubtitleText (pyStrip raw)))).length < 3 →
      (processRawText st now raw).2 = none ∧
      (processRawText st now raw).1.confirmedCompact = st.confirmedCompact ∧
      (processRawText st now raw).1.trailingSuffix = st.trailingSuffix ∧
      (processRawText st now raw).1.subtitles = st.subtitles) ∧
    ((∀ e ∈ st.subtitles, 3 ≤ e.text.length) →
      ∀ e ∈ (processRawText st now raw).1.subtitles, 3 ≤ e.text.length) := by
  constructor
  · intro hshort
    unfold processRawText
    split
    · exact ⟨rfl, rfl, rfl, rfl⟩
    · dsimp only
      split
      · exact ⟨rfl, rfl, rfl, rfl⟩
      · unfold processRawCore
        dsimp only
        split
        · exact ⟨rfl, rfl, rfl, rfl⟩
        · rw [if_pos (Or.inr hshort)]
          exact ⟨rfl, rfl, rfl, rfl⟩
  · intro hinv
    unfold processRawText
    split
    · exact hinv
    · dsimp only
      split
      · exact hinv
      · unfold processRawCore
        dsimp only
        split
        · exact hinv
        · split
          · exact hinv
          · split
            · unfold finishAccept
              dsimp only
              split
              · exact hinv
              · exact addTextToSubtitles_min_length _ _ _ (pyStrip_idem _) hinv
            · split
              · exact hinv
              · unfold finishAccept
                dsimp only
                split
                · exact hinv
                · exact addTextToSubtitles_min_length _ _ _ (pyStrip_idem _) hinv

theorem c10_witness :
    (pyStrip (extractNewPart (({} : TrackerState)).trailingSuffix (pyStrip (S "ab"))
        (compactSubtitleText (pyStrip (S "ab"))))).length < 3 ∧
    (processRawText {} 0 (S "ab")).2 = none ∧
    (processRawText {} 0 (S "ab")).1.subtitles = ({} : TrackerState).subtitles ∧
    (∀ e ∈ (processRawText {} 0 (S "ab")).1.subtitles, 3 ≤ e.text.length) := by
  refine ⟨by decide, ((c10_short_delta_discarded {} 0 (S "ab")).1 (by decide)).1,
    ((c10_short_delta_discarded {} 0 (S "ab")).1 (by decide)).2.2.2,
    (c10_short_delta_discarded {} 0 (S "ab")).2 ?_⟩
  intro e he
  cases he

theorem pyStrip_sublist (l : Str) : (pyStrip l).Sublist l := by
  have h1 : (pyLstrip l).Sublist l := (List.dropWhile_suffix pyIsSpace).sublist
  have h2 : (pyRstrip (pyLstrip l)).Sublist (pyLstrip l) := by
    rw [pyRstrip_eq_rdropWhile]
    exact (List.rdropWhile_prefix pyIsSpace (pyLstrip l)).sublist
  exact h2.trans h1

theorem removeZW_cleanTextDisplay (x : Str) :
    removeZW (cleanTextDisplay x) = cleanTextDisplay x := by
  unfold cleanTextDisplay
  split
  · rfl
  · apply List.filter_eq_self.mpr
    intro c hc
    have hmem : c ∈ removeZW (yearSub x) := (pyStrip_sublist _).subset hc
    exact (List.mem_filter.mp hmem).2

theorem pyStrip_cleanTextDisplay (x : Str) :
    pyStrip (cleanTextDisplay x) = cleanTextDisplay x := by
  unfold cleanTextDisplay
  split
  · rfl
  · exact pyStrip_idem _

theorem sliceAux_drop (l : Str) : ∀ r : Nat, ∃ j, sliceAux l r = l.drop j := by
  induction l with
  | nil => intro r; exact ⟨0, rfl⟩
  | cons c rest ih =>
      intro r
      unfold sliceAux
      split
      · obtain ⟨j, hj⟩ := ih r
        exact ⟨j + 1, by simpa using hj⟩
      · split
        · exact ⟨0, rfl⟩
        · obtain ⟨j, hj⟩ := ih (r - 1)
          exact ⟨j + 1, by simpa using hj⟩

theorem sliceFromCompactIndex_drop (t : Str) (h : removeZW t = t) (ci : Nat) :
    ∃ j, sliceFromCompactIndex t ci = t.drop j := by
  by_cases ht : t = []
  · subst ht
    exact ⟨0, by simp [sliceFromCompactIndex]⟩
  · by_cases hci : ci = 0
    · subst hci
      refine ⟨0, ?_⟩
      unfold sliceFromCompactIndex
      rw [if_neg ht, if_pos rfl, List.drop_zero]
    · obtain ⟨j, hj⟩ := sliceAux_drop (removeZW t) ci
      rw [h] at hj
      refine ⟨j, ?_⟩
      unfold sliceFromCompactIndex
      rw [if_neg ht, if_neg hci, h, hj]

theorem s6Down_shape (lc nc t : Str) (h : removeZW t = t) :
    ∀ k r, s6Down lc nc t k = some r → ∃ j, r = pyStrip (t.drop j) := by
  intro k
  induction k with
  | zero => intro r hr; simp [s6Down] at hr
  | succ k ih =>
      intro r hr
      rw [s6Down] at hr
      split at hr
      · simp at hr
      · split at hr
        · rename_i pos heq
          injection hr with hr
          subst hr
          dsimp only
          by_cases hd : sliceFromCompactIndex t (pos + (k + 1)) ≠ []
          · obtain ⟨j, hj⟩ := sliceFromCompactIndex_drop t h (pos + (k + 1))
            exact ⟨j, by rw [if_pos hd, hj]⟩
          · exact ⟨t.length, by rw [if_neg hd, List.drop_length]; rfl⟩
        · exact ih r hr

theorem getWordDiffStage7_shape (lc nc t : Str) (h : removeZW t = t) (h2 : pyStrip t = t) :
    ∃ j, getWordDiffStage7 lc nc t = pyStrip (t.drop j) := by
  unfold getWordDiffStage7
  dsimp only
  split
  · by_cases hd : sliceFromCompactIndex t (findCompactSuffixPrefixOverlap lc nc 10 200) ≠ []
    · obtain ⟨j, hj⟩ := sliceFromCompactIndex_drop t h _
      exact ⟨j, by rw [if_pos hd, hj]⟩
    · exact ⟨t.length, by rw [if_neg hd, List.drop_length]; rfl⟩
  · split
    · rename_i matchEndPos heq
      by_cases hd : sliceFromCompactIndex t matchEndPos ≠ []
      · obtain ⟨j, hj⟩ := sliceFromCompactIndex_drop t h matchEndPos
        exact ⟨j, by rw [if_pos hd, hj]⟩
      · exact ⟨t.length, by rw [if_neg hd, List.drop_length]; rfl⟩
    · exact ⟨0, by rw [List.drop_zero, h2]⟩

theorem getWordDiffStage6_shape (lc nc t : Str) (h : removeZW t = t) (h2 : pyStrip t = t) :
    ∃ j, getWordDiffStage6 lc nc t = pyStrip (t.drop j) := by
  unfold getWordDiffStage6
  split
  · rename_i r hr
    split at hr
    · exact s6Down_shape lc nc t h _ r hr
    · simp at hr
  · exact getWordDiffStage7_shape lc nc t h h2

theorem getWordDiffStage5_shape (lc nc t : Str) (h : removeZW t = t) (h2 : pyStrip t = t) :
    ∃ j, getWordDiffStage5 lc nc t = pyStrip (t.drop j) := by
  unfold getWordDiffStage5
  dsimp only
  split
  · split
    · rename_i compactPos heq
      by_cases hd : sliceFromCompactIndex t (compactPos + lc.length) ≠ []
      · obtain ⟨j, hj⟩ := sliceFromCompactIndex_drop t h _
        exact ⟨j, by rw [if_pos hd, hj]⟩
      · exact ⟨t.length, by rw [if_neg hd, List.drop_length]; rfl⟩
    · exact getWordDiffStage6_shape lc nc t h h2
  · exact getWordDiffStage6_shape lc nc t h h2

theorem getWordDiffStage4_shape (lastT t : Str) (h : removeZW t = t) (h2 : pyStrip t = t) :
    (∃ j, getWordDiffStage4 lastT t = pyStrip (t.drop j)) ∨
    (∃ k, getWordDiffStage4 lastT t = List.intercalate (S " ") ((pyWords t).drop k)) := by
  unfold getWordDiffStage4
  dsimp only
  split
  · split
    · exact Or.inr ⟨findListOverlap (pyWords lastT) (pyWords t), rfl⟩
    · exact Or.inl ⟨t.length, by rw [List.drop_length]; rfl⟩
  · exact Or.inl (getWordDiffStage5_shape _ _ t h h2)

/-- Claim C5 (amended): the delta extractor is a pure function of its two
arguments, but its result need not be a suffix of the current text: for
nonempty `last` it is either a whitespace-trimmed suffix of the CLEANED
current text (year tokens and zero-width characters removed, ends trimmed),
or — through the word-overlap strategy — the remaining words of the cleaned
current text rejoined with single spaces, which loses the original internal
whitespace. -/
theorem c5_result_shape (last new : Str) (h : last ≠ []) :
    (∃ i, getWordDiff last new = pyStrip ((cleanTextDisplay new).drop i)) ∨
    (∃ k, getWordDiff last new =
      List.intercalate (S " ") ((pyWords (cleanTextDisplay new)).drop k)) := by
  have hzw := removeZW_cleanTextDisplay new
  have hst := pyStrip_cleanTextDisplay new
  unfold getWordDiff
  split
  · rename_i he
    exact absurd he h
  · split
    · rename_i hnew
      refine Or.inl ⟨0, ?_⟩
      rw [hnew]
      rfl
    · dsimp only
      split
      · exact Or.inl ⟨(cleanTextDisplay new).length, by rw [List.drop_length]; rfl⟩
      · split
        · exact Or.inl ⟨(cleanTextDisplay last).length, rfl⟩
        · split
          · split
            · exact Or.inl ⟨_, rfl⟩
            · exact getWordDiffStage4_shape _ _ hzw hst
          · exact getWordDiffStage4_shape _ _ hzw hst

/-- Claim C5, counterexample to the literal contract: via the word-overlap
strategy `get_word_diff("X A", "A B  C")` returns `"B C"`, which is not a
whitespace-trimmed suffix of the current text `"A B  C"` (every trimmed
suffix keeps the double space). -/
theorem c5_counterexample :
    getWordDiff (S "X A") (S "A B  C") = S "B C" ∧
    ∀ i ∈ List.range ((S "A B  C").length + 1),
      pyStrip ((S "A B  C").drop i) ≠ S "B C" := by decide

theorem c5_witness :
    (S "X A") ≠ [] ∧
    ((∃ i, getWordDiff (S "X A") (S "A B  C") =
        pyStrip ((cleanTextDisplay (S "A B  C")).drop i)) ∨
     (∃ k, getWordDiff (S "X A") (S "A B  C") =
        List.intercalate (S " ") ((pyWords (cleanTextDisplay (S "A B  C"))).drop k))) :=
  ⟨by decide, c5_result_shape (S "X A") (S "A B  C") (by decide)⟩
